import Mathlib

/-!
Shallow embedding of the algcalc expression engine (`base.py`) and proofs
about the properties its specification claims.

The Python module builds symbolic arithmetic expressions (Sum, Product,
Power, Fraction, negation) over Variables and numeric literals, caches a
plain-text and a LaTeX rendering on every node at construction time, and
evaluates an expression by lowering it to a dask task graph and running it.

Modelling conventions, used throughout and noted again at the definitions
they affect:

* Python `int` is modelled as `ℤ` and `float` as `ℚ` (exact rationals).
  Every numeric step exercised by a claim below is exact in IEEE double
  (small integers, one negation), so no claim's truth depends on rounding.
* Python exceptions are modelled by `Except PyError`; construction-time
  code that cannot raise on the inputs modelled is kept total.
* dask's deferred execution is strict in all children and propagates the
  first raised exception; evaluation is modelled as a recursive evaluator
  over the finished tree, which agrees with running the lowered graph.
-/

namespace AlgCalc

/-- Python numeric scalars: `int` and `float`.  Floats are exact rationals in
this model (see the module conventions above). -/
inductive PyNum where
  | pint : ℤ → PyNum
  | pfloat : ℚ → PyNum
  deriving DecidableEq, Repr

/-- Runtime values flowing through the task graph: numbers, `None` (what
`getattr(variable, 'value')` yields for an unbound Variable), and the
`NotImplemented` sentinel, which `float.__pow__` *returns* — it does not
raise — when its exponent is not a number.  The task graph calls the stored
function directly, so no `__rpow__` fallback ever runs and the sentinel is
simply the task's value. -/
inductive PyVal where
  | vint : ℤ → PyVal
  | vfloat : ℚ → PyVal
  | vnone : PyVal
  | vnotImplemented : PyVal
  deriving DecidableEq, Repr

/-- Exception classes.  The first four are Python builtins that `base.py` can
actually raise.  `outsideModel` marks Python results that exist but are not
representable in the rational model (IEEE `inf`/`nan` literals, irrational
float powers); no theorem below depends on such a result.  The last three
constructors are the error classes *posited by the specification*
(`UnboundVariableError`, `ConversionError`, `MalformedOperandError`); they
appear in no definition translated from the source — `base.py` defines no
exception class at all — and exist only so that the spec's claims about them
can be stated and compared with what the code does. -/
inductive PyError where
  | typeError
  | valueError
  | zeroDivisionError
  | indexError
  | outsideModel
  | unboundVariableError
  | conversionError
  | malformedOperandError
  deriving DecidableEq, Repr

deriving instance DecidableEq for Except

/-- The operation functions an Operation's node can hold: `_sum` (line 11),
`_product` (line 7), `_divide` (line 15), `float.__pow__` (line 253),
`float.__neg__` (line 4 / line 133). -/
inductive FuncTag where
  | fsum | fproduct | fdivide | fpow | fneg
  deriving DecidableEq, Repr

/-- The Python class of an Operation object: `Operation` itself (results of
`__neg__`), or one of the subclasses `Sum`, `Product`, `Power`, `Fraction`.
`isinstance` tests in the source are tests on this tag. -/
inductive PyClass where
  | operation | sum | product | power | fraction
  deriving DecidableEq, Repr

/-! ### Numbers

Exact rational arithmetic, spelled through `mkRat`/`Rat.divInt` so that every
concrete evaluation reduces under `decide` (the library's `Rat.add`, `Rat.mul`,
`Rat.div` are `@[irreducible]`).  The lemmas `qadd_eq`, `qmul_eq`, `qdiv_eq`,
`qzpow_eq` below prove these are the ordinary field operations of `ℚ`. -/

/-- rational addition: `a.num/a.den + b.num/b.den`. -/
def qadd (a b : ℚ) : ℚ :=
  mkRat (a.num * Int.ofNat b.den + b.num * Int.ofNat a.den) (a.den * b.den)

/-- rational multiplication. -/
def qmul (a b : ℚ) : ℚ := mkRat (a.num * b.num) (a.den * b.den)

/-- rational division (`a / 0 = 0`, as in `ℚ`; the model always guards the
zero case anyway, mirroring Python's ZeroDivisionError). -/
def qdiv (a b : ℚ) : ℚ := Rat.divInt (a.num * Int.ofNat b.den) (Int.ofNat a.den * b.num)

/-- rational natural power. -/
def qpowNat (a : ℚ) : ℕ → ℚ
  | 0 => 1
  | n + 1 => qmul (qpowNat a n) a

/-- rational integer power. -/
def qzpow (a : ℚ) : ℤ → ℚ
  | .ofNat n => qpowNat a n
  | .negSucc n => qdiv 1 (qpowNat a (n + 1))

/-- numeric value of a Python number in the rational model.  (`mkRat z 1`
rather than a cast so that the definition evaluates inside `decide`.) -/
def PyNum.toQ : PyNum → ℚ
  | .pint z => mkRat z 1
  | .pfloat q => q

/-! ### String helpers (Python `str` operations used by the renderer) -/

/-- whitespace stripped by Python's `float(str)`. -/
def isPySpace (c : Char) : Bool :=
  c == ' ' || c == '\t' || c == '\n' || c == '\r' || c == '\x0b' || c == '\x0c'

/-- Python `str.strip(chars)`: remove characters of `set` from both ends. -/
def stripChars (cs : List Char) (set : List Char) : List Char :=
  ((cs.dropWhile set.contains).reverse.dropWhile set.contains).reverse

/-- numeric value of a digit run. -/
def digitsVal (ds : List Char) : ℕ :=
  ds.foldl (fun acc c => 10 * acc + (c.toNat - '0'.toNat)) 0

/-- does `needle` occur as a contiguous subsequence (Python `in` on strings)? -/
def containsSeq (needle : List Char) : List Char → Bool
  | [] => needle.isEmpty
  | c :: rest => needle.isPrefixOf (c :: rest) || containsSeq needle rest

/-- optional exponent suffix of a Python float literal (`e`/`E`, sign, digits);
`some e` only when the whole remainder is consumed. -/
def parseExpPart : List Char → Option ℤ
  | [] => some 0
  | c :: t =>
    if c == 'e' || c == 'E' then
      let (sgn, t') : ℤ × List Char :=
        match t with
        | '+' :: u => (1, u)
        | '-' :: u => (-1, u)
        | _ => (1, t)
      let ds := t'.takeWhile Char.isDigit
      let rest := t'.dropWhile Char.isDigit
      if ds.isEmpty || !rest.isEmpty then none else some (sgn * (digitsVal ds : ℤ))
    else none

/-- Python `float(s)` on a finite numeric literal: optional surrounding
whitespace, optional sign, digits with optional fractional part, optional
exponent.  (CPython additionally accepts `_` separators between digits; no
string built or tested by the claims contains one.) -/
def pyFloatParse (s : String) : Option ℚ :=
  let l := ((s.data.dropWhile isPySpace).reverse.dropWhile isPySpace).reverse
  let (sgn, l1) : ℚ × List Char :=
    match l with
    | '+' :: t => (1, t)
    | '-' :: t => (-1, t)
    | _ => (1, l)
  let ip := l1.takeWhile Char.isDigit
  let r1 := l1.dropWhile Char.isDigit
  match r1 with
  | '.' :: t =>
    let fp := t.takeWhile Char.isDigit
    let r2 := t.dropWhile Char.isDigit
    if ip.isEmpty && fp.isEmpty then none
    else
      match parseExpPart r2 with
      | none => none
      | some e =>
        some (qmul sgn (qmul
          (qadd (mkRat (Int.ofNat (digitsVal ip)) 1) (mkRat (Int.ofNat (digitsVal fp)) (10 ^ fp.length)))
          (qzpow (mkRat 10 1) e)))
  | _ =>
    if ip.isEmpty then none
    else
      match parseExpPart r1 with
      | none => none
      | some e => some (qmul sgn (qmul (mkRat (Int.ofNat (digitsVal ip)) 1) (qzpow (mkRat 10 1) e)))

/-- the IEEE special literals Python's `float(s)` also accepts
(`inf`, `infinity`, `nan`, optionally signed, any case). -/
def isInfNanLit (s : String) : Bool :=
  let l := ((s.data.dropWhile isPySpace).reverse.dropWhile isPySpace).reverse
  let core :=
    (match l with
     | '+' :: t => t
     | '-' :: t => t
     | _ => l).map Char.toLower
  core == "inf".data || core == "infinity".data || core == "nan".data

/-- does Python's `float(s)` succeed on the string `s`? -/
def pyFloatableStr (s : String) : Bool :=
  (pyFloatParse s).isSome || isInfNanLit s

/-- Python `+` on numbers: `int + int` is `int`, anything involving a float is
a float. -/
def numAdd : PyNum → PyNum → PyNum
  | .pint a, .pint b => .pint (a + b)
  | a, b => .pfloat (qadd a.toQ b.toQ)

/-- Python/numpy `*` on numbers, same kind rule as `numAdd`. -/
def numMul : PyNum → PyNum → PyNum
  | .pint a, .pint b => .pint (a * b)
  | a, b => .pfloat (qmul a.toQ b.toQ)

/-- unary minus on a numeric literal. -/
def numNeg : PyNum → PyNum
  | .pint z => .pint (-z)
  | .pfloat q => .pfloat (-q)

/-- `child < 0` for a numeric operand (line 31). -/
def numNegative : PyNum → Bool
  | .pint z => decide (z < 0)
  | .pfloat q => decide (q < 0)

/-- `str(n)`/`repr(n)` of a Python number.  `str(int)` is exact decimal.  The
claims never render a non-integral float constant; integral floats print as
`z.0` like CPython, and the non-integral branch (which in CPython is IEEE
shortest-round-trip printing, not representable for exact rationals) is a
placeholder no theorem touches. -/
def pyNumStr : PyNum → String
  | .pint z => toString z
  | .pfloat q => if q.den = 1 then toString q.num ++ ".0" else toString q

/-! ### The expression tree

An `Operand` is anything that can appear in an operation's argument list: a
numeric literal, a `Variable` (identified by its name; its mutable bound
value lives in the evaluation environment, mirroring that `set_value` happens
after construction), or a nested `Operation`.

An `Operation` (the Python `Operation` class and its subclasses, lines
116-271) stores the function reference of its node, the cached `repr_str` and
`latex_str`, the node's children (`self.node.children` is exactly the operand
list passed to `__init__`), the `inverted` tag, and its Python class.

`Operands` is the operand list, kept as a bespoke list so that all
tree-walking functions are structural (and hence kernel-computable). -/

mutual

inductive Operand where
  | num : PyNum → Operand
  | var : String → Operand
  | opn : Operation → Operand
  deriving DecidableEq

inductive Operation where
  | mk : FuncTag → String → String → Operands → Option String → PyClass → Operation
  deriving DecidableEq

inductive Operands where
  | nil : Operands
  | cons : Operand → Operands → Operands
  deriving DecidableEq

end

/-- the node's function (`Operation.__init__` argument `op`). -/
def Operation.func : Operation → FuncTag
  | .mk f _ _ _ _ _ => f

/-- cached plain-text rendering (`self.repr_str`, line 123). -/
def Operation.repr_str : Operation → String
  | .mk _ r _ _ _ _ => r

/-- cached LaTeX rendering (`self.latex_str`, line 124). -/
def Operation.latex_str : Operation → String
  | .mk _ _ l _ _ _ => l

/-- `self.node.children` (line 61: the args passed at construction). -/
def Operation.children : Operation → Operands
  | .mk _ _ _ ch _ _ => ch

/-- the `inverted` tag (line 125). -/
def Operation.inverted : Operation → Option String
  | .mk _ _ _ _ inv _ => inv

/-- the Python class of the object. -/
def Operation.cls : Operation → PyClass
  | .mk _ _ _ _ _ c => c

def Operands.toList : Operands → List Operand
  | .nil => []
  | .cons a rest => a :: rest.toList

def Operands.ofList : List Operand → Operands
  | [] => .nil
  | a :: rest => .cons a (Operands.ofList rest)

def Operands.append : Operands → Operands → Operands
  | .nil, bs => bs
  | .cons a rest, bs => .cons a (rest.append bs)

def Operands.length (as : Operands) : ℕ := as.toList.length

/-! ### Rendering helpers from the source -/

/-- `_get_latex_repr(obj)` (lines 38-44): numbers and Variables are wrapped in
braces, Operations return their cached `latex_str`. -/
def getLatexRepr : Operand → String
  | .num n => "\x7b" ++ pyNumStr n ++ "\x7d"
  | .var name => "\x7b" ++ name ++ "\x7d"
  | .opn o => o.latex_str

/-- `repr` of an operand: numbers print themselves, `Variable.__repr__`
returns the name (line 287), `Operation.__repr__` the cached `repr_str`
(line 139). -/
def reprOf : Operand → String
  | .num n => pyNumStr n
  | .var name => name
  | .opn o => o.repr_str

/-- `_check_inv(child, 'neg')` (lines 28-35): a negative numeric constant is
an additive inverse, a Variable never is, and any other object is one exactly
when its `inverted` tag equals `'neg'`.  (The function is only ever called
with `type='neg'`; the other branch returns Python `None`.) -/
def checkInvNeg : Operand → Bool
  | .num n => numNegative n
  | .var _ => false
  | .opn o => o.inverted == some "neg"

/-- `_turn_into_bracket(latex)` (lines 19-25): strip the outer braces, add
parentheses unless the payload already starts with `(` and ends with `)`,
re-brace.  (Python indexes `string[0]`, so a latex of length ≤ 2 would raise
IndexError; every latex built by the module has length ≥ 3.) -/
def turnIntoBracket (latex : String) : String :=
  let inner := (latex.data.drop 1).dropLast
  let bracket :=
    if inner.head? = some '(' ∧ inner.getLast? = some ')' then inner
    else '(' :: (inner ++ [')'])
  "\x7b" ++ String.mk bracket ++ "\x7d"

/-! ### Sum (lines 175-201) -/

/-- `Sum.make_latex(input)` (lines 178-182): additive inverses are appended
with no `' + '` token, everything else gets one. -/
def sumMakeLatex (input : Operand) : String :=
  if checkInvNeg input then getLatexRepr input else " + " ++ getLatexRepr input

/-- `Sum.__init__(*inputs)` (lines 184-187): repr joins operand reprs with
`' + '`; latex wraps the first operand's latex and appends
`Sum.make_latex` of each later operand.  Python indexes `inputs[0]`, so an
empty operand list raises IndexError there; the `[]` branch below is
unreachable from the operator surface and no theorem relies on it. -/
def sumInit (inputs : Operands) : Operation :=
  let latexS :=
    match inputs.toList with
    | [] => ""
    | a :: rest => "\x7b" ++ getLatexRepr a ++ String.join (rest.map sumMakeLatex) ++ "\x7d"
  .mk .fsum (" + ".intercalate (inputs.toList.map reprOf)) latexS inputs none .sum

/-- `Sum.__neg__` (lines 189-192): same as `Operation.__neg__` except the
latex brackets the whole sum: `'{-(' ... ')}'`. -/
def sumNeg (o : Operation) : Operation :=
  .mk .fneg ("-" ++ o.repr_str) ("\x7b-(" ++ o.latex_str ++ ")\x7d")
    (.cons (.opn o) .nil) (some "neg") .operation

/-! ### Product (lines 204-249) -/

/-- `Product.latex_check_floatable(str)` (lines 207-212):
`float(str.strip('{()}'))` succeeds? -/
def latexCheckFloatable (s : String) : Bool :=
  pyFloatableStr (String.mk (stripChars s.data "\x7b()\x7d".data))

/-- Python `s[i]` for the small fixed indexes used by `latex_sort_key`.  All
strings reaching it are brace-wrapped latexes of length ≥ 3, so the default
is never consulted (Python would raise IndexError). -/
def charAt (s : String) (i : ℕ) : Char := s.data.getD i ' '

/-- Python `s[-i]`. -/
def charFromEnd (s : String) (i : ℕ) : Char := s.data.getD (s.data.length - i) ' '

/-- `Product.latex_sort_key(latex)` (lines 214-224), tests in source order:
bare number 0, leading minus 1, fraction 2, fully parenthesized 4, rest 3. -/
def latexSortKey (latex : String) : ℕ :=
  if latexCheckFloatable latex then 0
  else if charAt latex 1 = '-' then 1
  else if containsSeq "\\frac".data latex.data then 2
  else if charAt latex 1 = '(' ∧ charFromEnd latex 2 = ')' then 4
  else 3

/-- the latex list built by the loop in `Product.make_latex` (lines 227-232):
each operand's latex, with Sum operands parenthesized first. -/
def productLatexList (inputs : List Operand) : List String :=
  inputs.map fun i =>
    let latex := getLatexRepr i
    match i with
    | .opn o => if o.cls = .sum then turnIntoBracket latex else latex
    | _ => latex

/-- the key comparison used to model `sorted(..., key=Product.latex_sort_key)`
(line 235). -/
def productSortKeyRel (a b : String) : Prop := latexSortKey a ≤ latexSortKey b

instance : DecidableRel productSortKeyRel := fun a b =>
  inferInstanceAs (Decidable (latexSortKey a ≤ latexSortKey b))

/-- `sorted(latex_list, key=Product.latex_sort_key)` (line 235).  CPython's
`sorted` is a stable sort by the key; `List.insertionSort` with `≤` on keys
is one (stability is proved below, `productSortedLatexList_filter_key`). -/
def productSortedLatexList (inputs : List Operand) : List String :=
  List.insertionSort productSortKeyRel (productLatexList inputs)

/-- the rest of `Product.make_latex` (lines 236-239): if the sorted list
starts with a bare number immediately followed by a fraction, parenthesize
the fraction.  Python reads `mapping[0]` and `mapping[1]`, so a list with
fewer than two entries raises IndexError when `mapping[0] == 0` (a Product is
only ever built with ≥ 2 operands by the operator surface); the short branch
below returns the list unchanged and no theorem relies on it. -/
def productMakeLatex (inputs : List Operand) : List String :=
  match productSortedLatexList inputs with
  | a :: b :: rest =>
    if latexSortKey a = 0 ∧ latexSortKey b = 2 then a :: turnIntoBracket b :: rest
    else a :: b :: rest
  | short => short

/-- `Product.__init__(*inputs)` (lines 241-244). -/
def productInit (inputs : Operands) : Operation :=
  .mk .fproduct (" * ".intercalate (inputs.toList.map reprOf))
    ("\x7b" ++ String.join (productMakeLatex inputs.toList) ++ "\x7d") inputs none .product

/-! ### Power and Fraction (lines 252-271) -/

/-- `Power.__init__(*inputs)` (lines 255-258).  Python indexes `inputs[0]` and
`inputs[1]` for the latex (so at least two operands are required, enforced by
`powerInitList`); the repr joins *all* operands with `**` and the node keeps
all of them — operands beyond the second are silently absent from the latex
only. -/
def powerInit (b e : Operand) (rest : List Operand) : Operation :=
  .mk .fpow ("**".intercalate ((b :: e :: rest).map reprOf))
    ("\x7b" ++ turnIntoBracket (getLatexRepr b) ++ "^\x7b" ++ getLatexRepr e ++ "\x7d\x7d")
    (Operands.ofList (b :: e :: rest)) none .power

/-- the `Power(*inputs)` call surface: fewer than two operands raises
IndexError at `inputs[1]` (or `inputs[0]`); nothing else is checked. -/
def powerInitList (inputs : List Operand) : Except PyError Operation :=
  match inputs with
  | b :: e :: rest => .ok (powerInit b e rest)
  | _ => .error .indexError

/-- `Fraction.__init__(*inputs)` (lines 264-267): `'{}/{}'.format` consumes
the first two operand reprs (extra arguments to `format` are ignored), the
latex likewise uses `inputs[0]` and `inputs[1]`, and the node keeps all
operands. -/
def fractionInit (numer denom : Operand) (rest : List Operand) : Operation :=
  .mk .fdivide (reprOf numer ++ "/" ++ reprOf denom)
    ("\x7b\\frac\x7b" ++ getLatexRepr numer ++ "\x7d\x7b" ++ getLatexRepr denom ++ "\x7d\x7d")
    (Operands.ofList (numer :: denom :: rest)) none .fraction

/-- the `Fraction(*inputs)` call surface: fewer than two operands raises
IndexError inside `format`. -/
def fractionInitList (inputs : List Operand) : Except PyError Operation :=
  match inputs with
  | numer :: denom :: rest => .ok (fractionInit numer denom rest)
  | _ => .error .indexError

/-! ### Negation and the operator surface -/

/-- `Operation.__neg__` (lines 130-133): a plain `Operation` wrapping
`float.__neg__`, repr `'-' + repr(self)`, latex `'{-' + latex + '}'`,
`inverted='neg'`. -/
def operationNeg (o : Operation) : Operation :=
  .mk .fneg ("-" ++ o.repr_str) ("\x7b-" ++ o.latex_str ++ "\x7d")
    (.cons (.opn o) .nil) (some "neg") .operation

/-- `Variable.__neg__` (lines 292-295): latex `'{' + '-' + '{name}' + '}'`. -/
def variableNeg (name : String) : Operation :=
  .mk .fneg ("-" ++ name) ("\x7b-" ++ ("\x7b" ++ name ++ "\x7d") ++ "\x7d")
    (.cons (.var name) .nil) (some "neg") .operation

/-- unary minus dispatch: a numeric literal negates numerically (plain Python
arithmetic before any class is involved); a Variable uses `Variable.__neg__`;
a Sum uses `Sum.__neg__`; every other Operation inherits
`Operation.__neg__`. -/
def pyNegU : Operand → Operand
  | .num n => .num (numNeg n)
  | .var name => .opn (variableNeg name)
  | .opn o => .opn (if o.cls = .sum then sumNeg o else operationNeg o)

/-- `+` dispatch.  `Sum.__add__` (lines 194-197) splices: if the *right*
operand is also a Sum its children are concatenated, otherwise it is appended
as one operand, and a new Sum is built.  Every other Operation and Variable
builds `Sum(self, other)` (lines 144-145, 300-301); a numeric left operand
falls through to the right operand's `__radd__`, which builds
`Sum(other, self)` (lines 147-148, 303-304).  Two numeric literals add as
plain numbers. -/
def pyAdd : Operand → Operand → Operand
  | .num a, .num b => .num (numAdd a b)
  | .opn o, other =>
    if o.cls = .sum then
      .opn (sumInit (o.children.append
        (match other with
         | .opn p => if p.cls = .sum then p.children else .cons other .nil
         | _ => .cons other .nil)))
    else .opn (sumInit (.cons (.opn o) (.cons other .nil)))
  | .var v, other => .opn (sumInit (.cons (.var v) (.cons other .nil)))
  | .num n, other => .opn (sumInit (.cons (.num n) (.cons other .nil)))

/-- `*` dispatch, the exact analogue of `pyAdd`: `Product.__mul__`
(lines 246-249) splices, everything else builds a two-operand Product
(lines 156-160, 312-316). -/
def pyMul : Operand → Operand → Operand
  | .num a, .num b => .num (numMul a b)
  | .opn o, other =>
    if o.cls = .product then
      .opn (productInit (o.children.append
        (match other with
         | .opn p => if p.cls = .product then p.children else .cons other .nil
         | _ => .cons other .nil)))
    else .opn (productInit (.cons (.opn o) (.cons other .nil)))
  | .var v, other => .opn (productInit (.cons (.var v) (.cons other .nil)))
  | .num n, other => .opn (productInit (.cons (.num n) (.cons other .nil)))

/-- `/` dispatch: every Operation and Variable builds `Fraction(self, other)`
(lines 162-163, 318-319), a numeric left operand builds
`Fraction(other, self)` via `__rtruediv__` (lines 165-166, 321-322).  Two
numeric literals divide as plain floats (a zero denominator would raise
ZeroDivisionError in Python; unreachable in the claims). -/
def pyDiv : Operand → Operand → Operand
  | .num a, .num b => .num (.pfloat (qdiv a.toQ b.toQ))
  | .opn o, other => .opn (fractionInit (.opn o) other [])
  | .var v, other => .opn (fractionInit (.var v) other [])
  | .num n, other => .opn (fractionInit (.num n) other [])

/-! ### `DelayedTaskNode.__init__` (lines 56-67), for the `operands = None`
contract -/

/-- observable state of a `DelayedTaskNode` after a successful `__init__`. -/
structure TaskNode where
  func : FuncTag
  children : Option (List Operand)
  deriving DecidableEq

/-- `DelayedTaskNode.__init__(func, args=None)` (lines 57-62): sets
`self.children = list(args) if args is not None else None` and then
unconditionally calls `regulate_parenting` (lines 64-67), which iterates
`self.children`.  Iterating `None` raises `TypeError`, so construction with
`args=None` fails; the `children is None` branch of `create_task`
(lines 73-74) is unreachable. -/
def delayedTaskNodeInit (func : FuncTag) (args : Option (List Operand)) :
    Except PyError TaskNode :=
  match args with
  | none => .error .typeError
  | some l => .ok ⟨func, some l⟩

/-! ### Parent back-references (`Operation.__init__`, lines 117-125), for the
parenting claim.

Constructing an Operation performs a fixed set of attribute writes, each
assigning the freshly built `self.node`.  We record the writes as data. -/

/-- one parent-attribute write performed while constructing an Operation:
`objAttr a` is `a.parent = self.node` executed on the operand wrapper object
`a` itself (an Operation or Variable instance); `nodeAttr a` is
`child.parent = self` executed on a child that is a `DelayedTaskNode`, i.e. a
write to a *node's* parent field. -/
inductive ParentWrite where
  | objAttr : Operand → ParentWrite
  | nodeAttr : Operand → ParentWrite
  deriving DecidableEq

/-- `hasattr(arg, 'node')` (line 121): Variables (line 278) and Operations
(line 118) carry a `node` attribute; numeric literals do not. -/
def hasNodeAttr : Operand → Bool
  | .num _ => false
  | .var _ => true
  | .opn _ => true

/-- `isinstance(child, DelayedTaskNode)` (line 66): an operand is a number, a
Variable, or an Operation — wrapper objects, never themselves
`DelayedTaskNode` instances — so this is `false` for every operand. -/
def isTaskNodeInstance : Operand → Bool := fun _ => false

/-- all parent writes during `Operation.__init__(op, ..., args, ...)`: first
`DelayedTaskNode.__init__` runs `regulate_parenting` (lines 64-67), writing
`child.parent` for each child that is a `DelayedTaskNode` instance; then the
loop at lines 119-122 writes `arg.parent = self.node` for each arg that has a
`node` attribute.  Every write assigns the newly constructed node. -/
def operationInitParentWrites (args : List Operand) : List ParentWrite :=
  ((args.filter isTaskNodeInstance).map .nodeAttr)
    ++ ((args.filter hasNodeAttr).map .objAttr)

/-! ### `Variable.set_value` (lines 280-281) -/

/-- Python objects that might be handed to `set_value`: numbers, strings,
`None` (standing generally for any non-string non-number object, on which
`float()` raises TypeError). -/
inductive PyObjVal where
  | ofInt : ℤ → PyObjVal
  | ofFloat : ℚ → PyObjVal
  | ofStr : String → PyObjVal
  | ofNone : PyObjVal
  deriving DecidableEq, Repr

/-- builtin `float(v)`: numbers coerce, strings parse as float literals
(ValueError on failure), non-string non-numbers raise TypeError.  String
`inf`/`nan` literals succeed in CPython with IEEE specials, which the
rational model cannot hold — marked `outsideModel`; no theorem depends on
them. -/
def pyFloatFn : PyObjVal → Except PyError ℚ
  | .ofInt z => .ok (mkRat z 1)
  | .ofFloat q => .ok q
  | .ofNone => .error .typeError
  | .ofStr s =>
    match pyFloatParse s with
    | some q => .ok q
    | none => if isInfNanLit s then .error .outsideModel else .error .valueError

/-- `Variable.set_value(value)` (lines 280-281): `self.value = float(value)` —
the successful result is the stored value. -/
def setValue (v : PyObjVal) : Except PyError ℚ := pyFloatFn v

/-! ### Evaluation

`Operation.compute` (lines 127-128) lowers the tree with
`create_task`/`_get_task` (lines 47-53, 69-75) — numbers pass through,
Variables become deferred `getattr(var, 'value')` reads, child Operations
recurse — and runs the dask graph: each node's function is applied to its
children's results, strictly, with the first raised exception propagating.

The environment maps a Variable's name to its currently bound value (`None`
when never set, line 277).  Reading an unbound Variable *succeeds* with
`None`; failures only arise when a `None` (or a wrong arity / wrong kind)
reaches an arithmetic function, exactly as in Python. -/

/-- current Variable bindings, by name. -/
def Env : Type := String → Option ℚ

/-- the runtime value of a Python number. -/
def valOfNum : PyNum → PyVal
  | .pint z => .vint z
  | .pfloat q => .vfloat q

/-- demand a number: a non-number (`None`, `NotImplemented`) reaching
arithmetic raises TypeError (`0 + None`, `2 * NotImplemented`,
`NotImplemented / 2`, ... all raise). -/
def valToNum : PyVal → Except PyError PyNum
  | .vint z => .ok (.pint z)
  | .vfloat q => .ok (.pfloat q)
  | .vnone => .error .typeError
  | .vnotImplemented => .error .typeError

/-- coerce a whole argument list to numbers, first failure wins. -/
def listToNums : List PyVal → Except PyError (List PyNum)
  | [] => .ok []
  | v :: rest =>
    match valToNum v with
    | .error e => .error e
    | .ok n =>
      match listToNums rest with
      | .error e => .error e
      | .ok ns => .ok (n :: ns)

/-- `_sum(*inputs) = sum(inputs)` (lines 11-12): left fold from the `int` 0;
any non-number poisons the addition with TypeError; an all-int input sums to
an int, otherwise the result is a float. -/
def pySumF (args : List PyVal) : Except PyError PyVal :=
  match listToNums args with
  | .error e => .error e
  | .ok ns => .ok (valOfNum (ns.foldl numAdd (.pint 0)))

/-- `_product(*inputs) = np.product(inputs)` (lines 7-8): the empty product
is the float `1.0`; a 1-tuple reduces a size-1 array by returning its
element *unchanged* — even a non-numeric object such as `None` — without
invoking any multiplication; with two or more elements everything is
multiplied out (all-int stays int as `np.int64`, anything else is a float,
and a `None`/`NotImplemented` raises TypeError at the first multiply). -/
def pyProductF (args : List PyVal) : Except PyError PyVal :=
  match args with
  | [] => .ok (.vfloat 1)
  | [v] => .ok v
  | _ =>
    match listToNums args with
    | .error e => .error e
    | .ok ns => .ok (valOfNum (ns.foldl numMul (.pint 1)))

/-- `_divide(one, two) = one/two` (lines 15-16): exactly two arguments (a
different arity raises TypeError at the call), true division always yields a
float, a zero divisor raises ZeroDivisionError, a non-number raises
TypeError. -/
def pyDivideF (args : List PyVal) : Except PyError PyVal :=
  match args with
  | [a, b] =>
    match valToNum a with
    | .error e => .error e
    | .ok na =>
      match valToNum b with
      | .error e => .error e
      | .ok nb =>
        if nb.toQ = 0 then .error .zeroDivisionError
        else .ok (.vfloat (qdiv na.toQ nb.toQ))
  | _ => .error .typeError

/-- `float.__pow__`: the descriptor requires the base to be a `float`
instance (an `int` or `None` base raises TypeError), and a third argument
raises TypeError; `0.0 ** negative` raises ZeroDivisionError.  A
*non-numeric* exponent (`None`, `NotImplemented`) does not raise:
`float.__pow__(2.0, None)` returns the `NotImplemented` sentinel, which —
the function being called directly by the task graph, outside the `**`
protocol — simply becomes the task's value.  An integer-valued exponent is
exact; a fractional exponent yields an irrational-valued float (or complex)
in CPython — `outsideModel`, unused by every claim. -/
def pyPowF (args : List PyVal) : Except PyError PyVal :=
  match args with
  | [.vfloat a, b] =>
    match b with
    | .vint z =>
      if a = 0 ∧ z < 0 then .error .zeroDivisionError else .ok (.vfloat (qzpow a z))
    | .vfloat q =>
      if q.den = 1 then
        if a = 0 ∧ q.num < 0 then .error .zeroDivisionError
        else .ok (.vfloat (qzpow a q.num))
      else .error .outsideModel
    | .vnone => .ok .vnotImplemented
    | .vnotImplemented => .ok .vnotImplemented
  | _ => .error .typeError

/-- `float.__neg__` (`neg`, line 4): requires exactly one `float` argument. -/
def pyNegF (args : List PyVal) : Except PyError PyVal :=
  match args with
  | [.vfloat q] => .ok (.vfloat (-q))
  | _ => .error .typeError

/-- apply a node's function to its evaluated children. -/
def applyFunc (f : FuncTag) (args : List PyVal) : Except PyError PyVal :=
  match f with
  | .fsum => pySumF args
  | .fproduct => pyProductF args
  | .fdivide => pyDivideF args
  | .fpow => pyPowF args
  | .fneg => pyNegF args

mutual

/-- `_get_task` (lines 47-53) followed by execution: a number is itself, a
Variable reads its current binding (`None` if unbound), an Operation runs its
node. -/
def evalOperand (env : Env) : Operand → Except PyError PyVal
  | .num n => .ok (valOfNum n)
  | .var s => .ok (match env s with | some q => .vfloat q | none => .vnone)
  | .opn (.mk f _ _ ch _ _) =>
    match evalArgs env ch with
    | .error e => .error e
    | .ok vs => applyFunc f vs

/-- evaluate an operand list left to right, first failure propagating (dask
computes every child; which child's exception surfaces is scheduler
dependent — every theorem below only uses *that* evaluation fails together
with the failure's class, which is the same on every order here). -/
def evalArgs (env : Env) : Operands → Except PyError (List PyVal)
  | .nil => .ok []
  | .cons a rest =>
    match evalOperand env a with
    | .error e => .error e
    | .ok v =>
      match evalArgs env rest with
      | .error e => .error e
      | .ok vs => .ok (v :: vs)

end

/-- `Operation.compute` (lines 127-128) / the spec's `evaluate()`. -/
def compute (env : Env) (o : Operation) : Except PyError PyVal :=
  evalOperand env (.opn o)

mutual

/-- does the operand's tree contain a Variable that is unbound in `env`? -/
def containsUnbound (env : Env) : Operand → Bool
  | .num _ => false
  | .var s => (env s).isNone
  | .opn (.mk _ _ _ ch _ _) => containsUnboundArgs env ch

def containsUnboundArgs (env : Env) : Operands → Bool
  | .nil => false
  | .cons a rest => containsUnbound env a || containsUnboundArgs env rest

end

/-! ### Fixed environments and small observers used by the theorems -/

/-- no Variable bound (every Variable fresh, `value = None`). -/
def env0 : Env := fun _ => none

/-- bindings after `x.set_value(3)` and `y.set_value(5)` (stored as
`float(3) = 3.0`, `float(5) = 5.0`). -/
def envXY : Env := fun s => if s = "x" then some 3 else if s = "y" then some 5 else none

/-- binding after `x.set_value(3)` only. -/
def envX3 : Env := fun s => if s = "x" then some 3 else none

/-- the operand list of an expression's node (`expr.node.children`); leaves
have none. -/
def operandNodeChildren : Operand → Operands
  | .opn o => o.children
  | _ => .nil

/-! ## Theorems

First the bridge lemmas showing the spelled-out rational operations are the
field operations of `ℚ`, then supporting lemmas, then one theorem per claim
of the specification (with witnesses and counterexamples where required). -/

theorem qadd_eq (a b : ℚ) : qadd a b = a + b := by
  have ha : ((a.den : ℚ)) ≠ 0 := Nat.cast_ne_zero.mpr a.den_nz
  have hb : ((b.den : ℚ)) ≠ 0 := Nat.cast_ne_zero.mpr b.den_nz
  rw [qadd, Rat.mkRat_eq_divInt, Rat.divInt_eq_div]
  conv_rhs => rw [← Rat.num_div_den a, ← Rat.num_div_den b, div_add_div _ _ ha hb]
  push_cast [Int.ofNat_eq_natCast]
  ring

theorem qmul_eq (a b : ℚ) : qmul a b = a * b := by
  have ha : ((a.den : ℚ)) ≠ 0 := Nat.cast_ne_zero.mpr a.den_nz
  have hb : ((b.den : ℚ)) ≠ 0 := Nat.cast_ne_zero.mpr b.den_nz
  rw [qmul, Rat.mkRat_eq_divInt, Rat.divInt_eq_div]
  conv_rhs => rw [← Rat.num_div_den a, ← Rat.num_div_den b, div_mul_div_comm]
  push_cast [Int.ofNat_eq_natCast]
  ring

theorem qdiv_eq (a b : ℚ) : qdiv a b = a / b := by
  rcases eq_or_ne b 0 with rfl | hb
  · simp [qdiv]
  · have hbn : ((b.num : ℚ)) ≠ 0 := by
      exact_mod_cast Rat.num_ne_zero.mpr hb
    have ha : ((a.den : ℚ)) ≠ 0 := Nat.cast_ne_zero.mpr a.den_nz
    have hbd : ((b.den : ℚ)) ≠ 0 := Nat.cast_ne_zero.mpr b.den_nz
    rw [qdiv, Rat.divInt_eq_div]
    conv_rhs => rw [← Rat.num_div_den a, ← Rat.num_div_den b]
    push_cast [Int.ofNat_eq_natCast]
    field_simp

theorem qpowNat_eq (a : ℚ) (n : ℕ) : qpowNat a n = a ^ n := by
  induction n with
  | zero => simp [qpowNat]
  | succ n ih => rw [qpowNat, qmul_eq, ih, pow_succ]

theorem qzpow_eq (a : ℚ) (z : ℤ) : qzpow a z = a ^ z := by
  cases z with
  | ofNat n => rw [qzpow, qpowNat_eq]; exact (zpow_natCast a n).symm
  | negSucc n => rw [qzpow, qdiv_eq, qpowNat_eq, one_div, zpow_negSucc]

theorem toQ_pint (z : ℤ) : (PyNum.pint z).toQ = (z : ℚ) := by
  rw [PyNum.toQ, Rat.mkRat_one]

/-! ### Unbound variables never evaluate to a number

The `None` read from an unbound Variable poisons evaluation: in almost every
position it reaches arithmetic and raises TypeError.  Two positions do not
raise: `np.product` of a 1-tuple returns its element (so a single-operand
Product passes `None` through unchanged), and `float.__pow__` with a
non-numeric exponent returns the `NotImplemented` sentinel.  In every case
the result is an exception or a non-numeric sentinel — never a number. -/

theorem listToNums_poisoned {args : List PyVal}
    (h : PyVal.vnone ∈ args ∨ PyVal.vnotImplemented ∈ args) :
    listToNums args = .error .typeError := by
  induction args with
  | nil => rcases h with h | h <;> cases h
  | cons a rest ih =>
    cases a with
    | vnone => simp [listToNums, valToNum]
    | vnotImplemented => simp [listToNums, valToNum]
    | vint z =>
      have hm : PyVal.vnone ∈ rest ∨ PyVal.vnotImplemented ∈ rest := by
        rcases h with h | h
        · rcases List.mem_cons.mp h with h | h
          · cases h
          · exact Or.inl h
        · rcases List.mem_cons.mp h with h | h
          · cases h
          · exact Or.inr h
      simp [listToNums, valToNum, ih hm]
    | vfloat q =>
      have hm : PyVal.vnone ∈ rest ∨ PyVal.vnotImplemented ∈ rest := by
        rcases h with h | h
        · rcases List.mem_cons.mp h with h | h
          · cases h
          · exact Or.inl h
        · rcases List.mem_cons.mp h with h | h
          · cases h
          · exact Or.inr h
      simp [listToNums, valToNum, ih hm]

/-- in a two-element list whose head is a number, the sentinel sits in the
second position. -/
theorem sentinel_of_pair {a b : PyVal}
    (h : PyVal.vnone ∈ [a, b] ∨ PyVal.vnotImplemented ∈ [a, b])
    (ha1 : a ≠ PyVal.vnone) (ha2 : a ≠ PyVal.vnotImplemented) :
    b = PyVal.vnone ∨ b = PyVal.vnotImplemented := by
  rcases h with h | h
  · rcases List.mem_cons.mp h with h | h
    · exact absurd h.symm ha1
    · rcases List.mem_cons.mp h with h | h
      · exact Or.inl h.symm
      · cases h
  · rcases List.mem_cons.mp h with h | h
    · exact absurd h.symm ha2
    · rcases List.mem_cons.mp h with h | h
      · exact Or.inr h.symm
      · cases h

/-- a `None`/`NotImplemented` among the arguments of any of the five
operation functions yields an exception, or hands the sentinel through
(single-operand `np.product`; the exponent position of `float.__pow__`) —
never a number. -/
theorem applyFunc_poisoned {f : FuncTag} {args : List PyVal}
    (h : PyVal.vnone ∈ args ∨ PyVal.vnotImplemented ∈ args) :
    (∃ e, applyFunc f args = .error e) ∨
      applyFunc f args = .ok .vnone ∨ applyFunc f args = .ok .vnotImplemented := by
  cases f with
  | fsum =>
    exact Or.inl ⟨.typeError, by simp [applyFunc, pySumF, listToNums_poisoned h]⟩
  | fproduct =>
    rcases args with _ | ⟨a, _ | ⟨b, rest⟩⟩
    · rcases h with h | h <;> cases h
    · rcases h with h | h
      · rcases List.mem_singleton.mp h with rfl
        exact Or.inr (Or.inl rfl)
      · rcases List.mem_singleton.mp h with rfl
        exact Or.inr (Or.inr rfl)
    · exact Or.inl ⟨.typeError, by simp [applyFunc, pyProductF, listToNums_poisoned h]⟩
  | fdivide =>
    rcases args with _ | ⟨a, _ | ⟨b, _ | ⟨c, rest⟩⟩⟩
    · rcases h with h | h <;> cases h
    · exact Or.inl ⟨.typeError, rfl⟩
    · cases a with
      | vnone => exact Or.inl ⟨.typeError, rfl⟩
      | vnotImplemented => exact Or.inl ⟨.typeError, rfl⟩
      | vint z =>
        rcases sentinel_of_pair h (by simp) (by simp) with rfl | rfl
        · exact Or.inl ⟨.typeError, rfl⟩
        · exact Or.inl ⟨.typeError, rfl⟩
      | vfloat q =>
        rcases sentinel_of_pair h (by simp) (by simp) with rfl | rfl
        · exact Or.inl ⟨.typeError, rfl⟩
        · exact Or.inl ⟨.typeError, rfl⟩
    · exact Or.inl ⟨.typeError, rfl⟩
  | fpow =>
    rcases args with _ | ⟨a, _ | ⟨b, _ | ⟨c, rest⟩⟩⟩
    · rcases h with h | h <;> cases h
    · cases a with
      | vfloat q => rcases h with h | h <;> simp at h
      | vnone => exact Or.inl ⟨.typeError, rfl⟩
      | vnotImplemented => exact Or.inl ⟨.typeError, rfl⟩
      | vint z => exact Or.inl ⟨.typeError, rfl⟩
    · cases a with
      | vnone => exact Or.inl ⟨.typeError, rfl⟩
      | vnotImplemented => exact Or.inl ⟨.typeError, rfl⟩
      | vint z => exact Or.inl ⟨.typeError, rfl⟩
      | vfloat qa =>
        rcases sentinel_of_pair h (by simp) (by simp) with rfl | rfl
        · exact Or.inr (Or.inr rfl)
        · exact Or.inr (Or.inr rfl)
    · cases a with
      | vnone => exact Or.inl ⟨.typeError, rfl⟩
      | vnotImplemented => exact Or.inl ⟨.typeError, rfl⟩
      | vint z => exact Or.inl ⟨.typeError, rfl⟩
      | vfloat qa => exact Or.inl ⟨.typeError, rfl⟩
  | fneg =>
    rcases args with _ | ⟨a, _ | ⟨b, rest⟩⟩
    · rcases h with h | h <;> cases h
    · cases a with
      | vfloat q => rcases h with h | h <;> simp at h
      | vnone => exact Or.inl ⟨.typeError, rfl⟩
      | vnotImplemented => exact Or.inl ⟨.typeError, rfl⟩
      | vint z => exact Or.inl ⟨.typeError, rfl⟩
    · cases a with
      | vnone => exact Or.inl ⟨.typeError, rfl⟩
      | vnotImplemented => exact Or.inl ⟨.typeError, rfl⟩
      | vint z => exact Or.inl ⟨.typeError, rfl⟩
      | vfloat qa => exact Or.inl ⟨.typeError, rfl⟩

mutual

theorem containsUnbound_eval (env : Env) :
    ∀ a : Operand, containsUnbound env a = true →
      (∃ e, evalOperand env a = .error e) ∨
        evalOperand env a = .ok .vnone ∨ evalOperand env a = .ok .vnotImplemented
  | .num n => by intro h; simp [containsUnbound] at h
  | .var s => by
    intro h
    cases hes : env s with
    | none => exact Or.inr (Or.inl (by simp [evalOperand, hes]))
    | some q => simp [containsUnbound, hes] at h
  | .opn (.mk f r l ch inv cls) => by
    intro h
    rw [containsUnbound] at h
    rcases containsUnboundArgs_eval env ch h with ⟨e, he⟩ | ⟨vs, hok, hmem⟩
    · exact Or.inl ⟨e, by simp [evalOperand, he]⟩
    · rcases applyFunc_poisoned (f := f) hmem with ⟨e, hfa⟩ | hfa | hfa
      · exact Or.inl ⟨e, by simp [evalOperand, hok, hfa]⟩
      · exact Or.inr (Or.inl (by simp [evalOperand, hok, hfa]))
      · exact Or.inr (Or.inr (by simp [evalOperand, hok, hfa]))

theorem containsUnboundArgs_eval (env : Env) :
    ∀ as : Operands, containsUnboundArgs env as = true →
      (∃ e, evalArgs env as = .error e) ∨
        ∃ vs, evalArgs env as = .ok vs ∧
          (PyVal.vnone ∈ vs ∨ PyVal.vnotImplemented ∈ vs)
  | .nil => by intro h; simp [containsUnboundArgs] at h
  | .cons a rest => by
    intro h
    rw [containsUnboundArgs, Bool.or_eq_true] at h
    rcases h with h1 | h2
    · rcases containsUnbound_eval env a h1 with ⟨e, he⟩ | hok | hok
      · exact Or.inl ⟨e, by simp [evalArgs, he]⟩
      · cases hr : evalArgs env rest with
        | error e => exact Or.inl ⟨e, by simp [evalArgs, hok, hr]⟩
        | ok vs =>
          exact Or.inr ⟨.vnone :: vs, by simp [evalArgs, hok, hr],
            Or.inl (List.mem_cons_self _ _)⟩
      · cases hr : evalArgs env rest with
        | error e => exact Or.inl ⟨e, by simp [evalArgs, hok, hr]⟩
        | ok vs =>
          exact Or.inr ⟨.vnotImplemented :: vs, by simp [evalArgs, hok, hr],
            Or.inr (List.mem_cons_self _ _)⟩
    · cases ho : evalOperand env a with
      | error e => exact Or.inl ⟨e, by simp [evalArgs, ho]⟩
      | ok v =>
        rcases containsUnboundArgs_eval env rest h2 with ⟨e, he⟩ | ⟨vs, hok, hmem⟩
        · exact Or.inl ⟨e, by simp [evalArgs, ho, he]⟩
        · refine Or.inr ⟨v :: vs, by simp [evalArgs, ho, hok], ?_⟩
          rcases hmem with hm | hm
          · exact Or.inl (List.mem_cons_of_mem _ hm)
          · exact Or.inr (List.mem_cons_of_mem _ hm)

end

/-! ### Claims C2, C3, C4 -/

/-- C3.  With `x.set_value(3)` and `y.set_value(5)` (each stored as the float
of its argument), evaluating `(x + 2) * y` yields `25.0`. -/
theorem claim3_evaluate :
    setValue (.ofInt 3) = .ok 3 ∧ setValue (.ofInt 5) = .ok 5 ∧
    evalOperand envXY (pyMul (pyAdd (.var "x") (.num (.pint 2))) (.var "y")) =
      .ok (.vfloat 25) := by
  exact ⟨by decide, by decide, by decide⟩

/-- C4, counterexample.  The claim says `set_value(v)` fails with
`ConversionError` when `v` is not numeric-coercible.  `set_value(None)` does
fail — but with the builtin TypeError of `float(None)`; no `ConversionError`
class exists in `base.py`. -/
theorem claim4_counterexample :
    setValue .ofNone = .error .typeError ∧
    ((Except.error PyError.typeError : Except PyError ℚ)
      == .error .conversionError) = false := by
  exact ⟨rfl, by decide⟩

/-- C4, amended.  `set_value(v)` stores `float(v)`: numbers are stored
exactly, float-parseable strings parse; a non-string non-number raises the
builtin TypeError and an unparseable string the builtin ValueError — there is
no `ConversionError` class. -/
theorem claim4_amended :
    (∀ z : ℤ, setValue (.ofInt z) = .ok (mkRat z 1)) ∧
    (∀ q : ℚ, setValue (.ofFloat q) = .ok q) ∧
    setValue (.ofStr "3.5") = .ok (mkRat 7 2) ∧
    setValue .ofNone = .error .typeError ∧
    setValue (.ofStr "abc") = .error .valueError := by
  exact ⟨fun z => rfl, fun q => rfl, by decide, rfl, by decide⟩

/-! ### Claims C9, C10 -/

/-- C9.  The claim (with the spec) says constructing an ExpressionNode with
`operands = None` succeeds and later lowers to a zero-argument deferred unit.
In the code, `DelayedTaskNode.__init__` sets `children = None` and then
unconditionally calls `regulate_parenting`, which iterates `self.children` —
iterating `None` raises TypeError, so construction fails for every operation
function; the `children is None` branch of `create_task` is dead code.  The
claim matches the code's own visible intent, so this is a code bug. -/
theorem claim9_init_none_fails :
    (∀ f : FuncTag, delayedTaskNodeInit f none = .error .typeError) ∧
    delayedTaskNodeInit .fsum none = .error .typeError := by
  exact ⟨fun f => rfl, rfl⟩

/-- C10, counterexample.  The claim says `Power` or `Fraction` given more
than two operands fails fast at construction with `MalformedOperandError`.
Constructing `Power(2, 3, 4)` and `Fraction(2, 3, 4)` succeeds (the result is
`.ok`, not an error — `base.py` checks no arity and has no
`MalformedOperandError` class). -/
theorem claim10_counterexample :
    powerInitList [.num (.pint 2), .num (.pint 3), .num (.pint 4)] =
      .ok (powerInit (.num (.pint 2)) (.num (.pint 3)) [.num (.pint 4)]) ∧
    fractionInitList [.num (.pint 2), .num (.pint 3), .num (.pint 4)] =
      .ok (fractionInit (.num (.pint 2)) (.num (.pint 3)) [.num (.pint 4)]) ∧
    ((powerInitList [.num (.pint 2), .num (.pint 3), .num (.pint 4)]
      == .error .malformedOperandError) = false) := by
  exact ⟨rfl, rfl, by decide⟩

/-- C10, amended.  A `Power` or `Fraction` built with three operands
constructs successfully and keeps all three operands in its node (no
truncation of the operand list; `Power`'s repr even shows all three — only
the latex silently uses the first two); the arity violation surfaces only at
evaluation time, as the builtin TypeError of calling the binary
`float.__pow__` / `_divide` with three arguments. -/
theorem claim10_amended :
    (powerInit (.num (.pint 2)) (.num (.pint 3)) [.num (.pint 4)]).children.length = 3 ∧
    (powerInit (.num (.pint 2)) (.num (.pint 3)) [.num (.pint 4)]).repr_str = "2**3**4" ∧
    compute env0 (powerInit (.num (.pint 2)) (.num (.pint 3)) [.num (.pint 4)]) =
      .error .typeError ∧
    (fractionInit (.num (.pint 2)) (.num (.pint 3)) [.num (.pint 4)]).children.length = 3 ∧
    (fractionInit (.num (.pint 2)) (.num (.pint 3)) [.num (.pint 4)]).repr_str = "2/3" ∧
    compute env0 (fractionInit (.num (.pint 2)) (.num (.pint 3)) [.num (.pint 4)]) =
      .error .typeError := by
  exact ⟨by decide, by decide, by decide, by decide, by decide, by decide⟩

/-! ### Claim C5 -/

/-- C5.  In a Sum's LaTeX rendering an operand detected as an additive
inverse is appended with no `' + '` token, all others with one; the
inversion check holds exactly for negative numeric constants and for
non-Variable Expressions whose `inverted` tag is `'neg'` (never for a
Variable).  Concretely, `latex(x + (-y))` is `{{x}{-{y}}}` (no `+` anywhere)
while `latex(x + y)` is `{{x} + {y}}` and contains `" + "`. -/
theorem claim5_sum_inversion_rendering :
    (∀ input, sumMakeLatex input =
      if checkInvNeg input then getLatexRepr input else " + " ++ getLatexRepr input) ∧
    (∀ z : ℤ, checkInvNeg (.num (.pint z)) = decide (z < 0)) ∧
    (∀ q : ℚ, checkInvNeg (.num (.pfloat q)) = decide (q < 0)) ∧
    (∀ name : String, checkInvNeg (.var name) = false) ∧
    (∀ o : Operation, checkInvNeg (.opn o) = (o.inverted == some "neg")) ∧
    getLatexRepr (pyAdd (.var "x") (pyNegU (.var "y"))) = "\x7b\x7bx\x7d\x7b-\x7by\x7d\x7d\x7d" ∧
    ((getLatexRepr (pyAdd (.var "x") (pyNegU (.var "y")))).data.contains '+') = false ∧
    getLatexRepr (pyAdd (.var "x") (.var "y")) = "\x7b\x7bx\x7d + \x7by\x7d\x7d" ∧
    containsSeq " + ".data (getLatexRepr (pyAdd (.var "x") (.var "y"))).data = true := by
  refine ⟨fun input => rfl, fun z => rfl, fun q => rfl, fun name => rfl,
    fun o => by rcases o with ⟨f, r, l, ch, inv, cls⟩; rfl,
    by decide, by decide, by decide, by decide⟩

/-! ### Claim C7 -/

/-- C7, counterexample.  The claim says the textual form of
`negate(negate(e))` is `"-(-<e>)"`.  For `e = x + 1` (repr `"x + 1"`) the
code produces `"--x + 1"` — `Operation.__neg__` prepends a bare `'-'` to the
repr with no parentheses — which differs from the claimed `"-(-x + 1)"`. -/
theorem claim7_counterexample :
    reprOf (pyNegU (pyNegU (pyAdd (.var "x") (.num (.pint 1))))) = "--x + 1" ∧
    reprOf (pyAdd (.var "x") (.num (.pint 1))) = "x + 1" ∧
    (("--x + 1" : String) == "-(-" ++ "x + 1" ++ ")") = false := by
  exact ⟨by decide, by decide, by decide⟩

/-- evaluating a node that wraps `float.__neg__` around a single operand that
evaluates to a float negates that float. -/
theorem eval_neg_wrapper (env : Env) (o : Operation) (x : Operand) (q : ℚ)
    (hch : o.children = .cons x .nil) (hf : o.func = .fneg)
    (hx : evalOperand env x = .ok (.vfloat q)) :
    evalOperand env (.opn o) = .ok (.vfloat (-q)) := by
  rcases o with ⟨f, r, l, ch, inv, cls⟩
  simp only [Operation.children] at hch
  simp only [Operation.func] at hf
  subst hch hf
  simp only [evalOperand, evalArgs]
  rw [hx]
  rfl

/-- C7, amended.  Whenever an Expression `e` evaluates to a float value `q`,
`negate(negate(e))` evaluates to the same `q` (the float hypothesis is
needed: `float.__neg__` rejects non-float values, e.g. the int result of an
all-integer constant Sum); its textual form is `"--" ++ repr(e)` — a doubled
minus with no parentheses, not `"-(-<e>)"`, and not re-simplified to `e`. -/
theorem claim7_amended (env : Env) (e : Operation) (q : ℚ)
    (h : compute env e = .ok (.vfloat q)) :
    evalOperand env (pyNegU (pyNegU (.opn e))) = .ok (.vfloat q) ∧
    reprOf (pyNegU (pyNegU (.opn e))) = "--" ++ e.repr_str := by
  have h1 : evalOperand env (.opn e) = .ok (.vfloat q) := h
  by_cases hs : e.cls = .sum
  · have hinner : pyNegU (.opn e) = .opn (sumNeg e) := by
      simp only [pyNegU, if_pos hs]
    have h3 : evalOperand env (.opn (operationNeg (sumNeg e))) = .ok (.vfloat (- -q)) :=
      eval_neg_wrapper env (operationNeg (sumNeg e)) (.opn (sumNeg e)) (-q) rfl rfl
        (eval_neg_wrapper env (sumNeg e) (.opn e) q rfl rfl h1)
    rw [neg_neg] at h3
    refine ⟨?_, ?_⟩
    · rw [hinner]
      exact h3
    · rw [hinner]
      rfl
  · have hinner : pyNegU (.opn e) = .opn (operationNeg e) := by
      simp only [pyNegU, if_neg hs]
    have h3 : evalOperand env (.opn (operationNeg (operationNeg e))) = .ok (.vfloat (- -q)) :=
      eval_neg_wrapper env (operationNeg (operationNeg e)) (.opn (operationNeg e)) (-q) rfl rfl
        (eval_neg_wrapper env (operationNeg e) (.opn e) q rfl rfl h1)
    rw [neg_neg] at h3
    refine ⟨?_, ?_⟩
    · rw [hinner]
      exact h3
    · rw [hinner]
      rfl

/-- C7, witness: for `e = -x` (a plain negation Operation) with `x` bound to
`3`, `e` evaluates to the float `-3` and the double negation evaluates to
`-3` again with repr `"--" ++ "-x"`. -/
theorem claim7_witness :
    evalOperand envX3 (pyNegU (pyNegU (.opn (variableNeg "x")))) = .ok (.vfloat (-3)) ∧
    reprOf (pyNegU (pyNegU (.opn (variableNeg "x")))) = "--" ++ (variableNeg "x").repr_str :=
  claim7_amended envX3 (variableNeg "x") (-3) (by decide)

/-! ### Claim C8 -/

/-- C8, counterexample.  The claim says constructing an Operation sets each
node-bearing operand's *node's* parent to the new node.  Constructing
`Sum(x, y)` performs exactly two parent writes, both to the `parent`
attribute of the operand wrapper objects themselves (`arg.parent =
self.node`, line 122); no write ever targets an operand's node's parent
field — `regulate_parenting` only touches children that are themselves
`DelayedTaskNode` instances, which operands never are — so `x.node.parent`
stays `None`. -/
theorem claim8_counterexample :
    hasNodeAttr (.var "x") = true ∧
    operationInitParentWrites [.var "x", .var "y"] =
      [.objAttr (.var "x"), .objAttr (.var "y")] ∧
    (decide (ParentWrite.nodeAttr (.var "x") ∈
      operationInitParentWrites [.var "x", .var "y"])) = false := by
  exact ⟨rfl, rfl, by decide⟩

/-- C8, amended.  During `Operation.__init__`, every operand that carries a
`node` attribute (Operations and Variables, not numeric literals) gets its
own `parent` attribute — on the wrapper object, not on its node — assigned
the newly constructed node; no operand's node's parent field is ever
written. -/
theorem claim8_amended (args : List Operand) (a : Operand)
    (h1 : a ∈ args) (h2 : hasNodeAttr a = true) :
    ParentWrite.objAttr a ∈ operationInitParentWrites args ∧
    ParentWrite.nodeAttr a ∉ operationInitParentWrites args := by
  constructor
  · refine List.mem_append_right _ ?_
    exact List.mem_map_of_mem _ (List.mem_filter.mpr ⟨h1, h2⟩)
  · intro hmem
    rcases List.mem_append.mp hmem with hl | hr
    · rcases List.mem_map.mp hl with ⟨b, hb, hba⟩
      simp [isTaskNodeInstance] at hb
    · rcases List.mem_map.mp hr with ⟨b, hb, hba⟩
      cases hba

/-- C8, witness: constructing an Operation with operand list `[x]` writes
`x.parent` (the wrapper attribute) and never `x.node.parent`. -/
theorem claim8_witness :
    ParentWrite.objAttr (.var "x") ∈ operationInitParentWrites [.var "x"] ∧
    ParentWrite.nodeAttr (.var "x") ∉ operationInitParentWrites [.var "x"] :=
  claim8_amended [.var "x"] (.var "x") (by decide) (by decide)

/-! ### Claim C1 -/

/-- @[simp]-style helpers: the class and children of freshly built Sums and
Products. -/
theorem sumInit_cls (inputs : Operands) : (sumInit inputs).cls = .sum := rfl

theorem sumInit_children (inputs : Operands) : (sumInit inputs).children = inputs := rfl

theorem productInit_cls (inputs : Operands) : (productInit inputs).cls = .product := rfl

theorem productInit_children (inputs : Operands) : (productInit inputs).children = inputs := rfl

/-- C1, counterexample.  The claim says `(a + b) + c` *and* `a + (b + c)`
both give a Sum with exactly 3 operands `a, b, c` (and likewise for Product
under `*`).  Take the Expressions `a = -a0`, `b = -b0`, `c = -c0` (plain
negation Operations).  `a + (b + c)` has the operand list `[a, Sum(b, c)]` of
length 2 — flattening only fires when the *left* operand of `+` is itself a
Sum, so the right-nested build keeps a nested Sum-of-Sum; the same happens
for Product under `*`. -/
theorem claim1_counterexample :
    ((operandNodeChildren (pyAdd (.opn (variableNeg "a"))
        (pyAdd (.opn (variableNeg "b")) (.opn (variableNeg "c"))))).length == 3) = false ∧
    (operandNodeChildren (pyAdd (.opn (variableNeg "a"))
        (pyAdd (.opn (variableNeg "b")) (.opn (variableNeg "c"))))).length = 2 ∧
    ((operandNodeChildren (pyMul (.opn (variableNeg "a"))
        (pyMul (.opn (variableNeg "b")) (.opn (variableNeg "c"))))).length == 3) = false ∧
    (operandNodeChildren (pyMul (.opn (variableNeg "a"))
        (pyMul (.opn (variableNeg "b")) (.opn (variableNeg "c"))))).length = 2 := by
  exact ⟨by decide, by decide, by decide, by decide⟩

/-- C1, amended.  For Expressions `a, b, c` none of which is itself a Sum,
`(a + b) + c` is a Sum whose operand list is exactly `[a, b, c]` in
construction order; but `a + (b + c)` is a Sum with the two operands
`[a, Sum(b, c)]` — the operand list of the right operand is spliced only
when the *left* operand of `+` is a Sum.  The analogous statements hold for
Product under `*` (with "Product" in place of "Sum"). -/
theorem claim1_amended :
    (∀ a b c : Operation, a.cls ≠ .sum → b.cls ≠ .sum → c.cls ≠ .sum →
      pyAdd (pyAdd (.opn a) (.opn b)) (.opn c) =
        .opn (sumInit (.cons (.opn a) (.cons (.opn b) (.cons (.opn c) .nil)))) ∧
      pyAdd (.opn a) (pyAdd (.opn b) (.opn c)) =
        .opn (sumInit (.cons (.opn a)
          (.cons (.opn (sumInit (.cons (.opn b) (.cons (.opn c) .nil)))) .nil)))) ∧
    (∀ a b c : Operation, a.cls ≠ .product → b.cls ≠ .product → c.cls ≠ .product →
      pyMul (pyMul (.opn a) (.opn b)) (.opn c) =
        .opn (productInit (.cons (.opn a) (.cons (.opn b) (.cons (.opn c) .nil)))) ∧
      pyMul (.opn a) (pyMul (.opn b) (.opn c)) =
        .opn (productInit (.cons (.opn a)
          (.cons (.opn (productInit (.cons (.opn b) (.cons (.opn c) .nil)))) .nil)))) := by
  constructor
  · intro a b c ha hb hc
    have h1 : pyAdd (.opn a) (.opn b) =
        .opn (sumInit (.cons (.opn a) (.cons (.opn b) .nil))) := by
      simp only [pyAdd, if_neg ha]
    have h2 : pyAdd (.opn b) (.opn c) =
        .opn (sumInit (.cons (.opn b) (.cons (.opn c) .nil))) := by
      simp only [pyAdd, if_neg hb]
    constructor
    · rw [h1]
      simp only [pyAdd, sumInit_cls, sumInit_children, if_neg hc, Operands.append]
      exact if_pos trivial
    · rw [h2]
      simp only [pyAdd, if_neg ha, sumInit_cls]
  · intro a b c ha hb hc
    have h1 : pyMul (.opn a) (.opn b) =
        .opn (productInit (.cons (.opn a) (.cons (.opn b) .nil))) := by
      simp only [pyMul, if_neg ha]
    have h2 : pyMul (.opn b) (.opn c) =
        .opn (productInit (.cons (.opn b) (.cons (.opn c) .nil))) := by
      simp only [pyMul, if_neg hb]
    constructor
    · rw [h1]
      simp only [pyMul, productInit_cls, productInit_children, if_neg hc, Operands.append]
      exact if_pos trivial
    · rw [h2]
      simp only [pyMul, if_neg ha, productInit_cls]

/-- C1, witness: at `a = -a0`, `b = -b0`, `c = -c0` (none a Sum or Product),
the left-nested build flattens to three operands and the right-nested build
keeps the nested Sum (respectively Product). -/
theorem claim1_witness :
    (pyAdd (pyAdd (.opn (variableNeg "a")) (.opn (variableNeg "b"))) (.opn (variableNeg "c")) =
      .opn (sumInit (.cons (.opn (variableNeg "a")) (.cons (.opn (variableNeg "b"))
        (.cons (.opn (variableNeg "c")) .nil)))) ∧
     pyAdd (.opn (variableNeg "a")) (pyAdd (.opn (variableNeg "b")) (.opn (variableNeg "c"))) =
      .opn (sumInit (.cons (.opn (variableNeg "a"))
        (.cons (.opn (sumInit (.cons (.opn (variableNeg "b"))
          (.cons (.opn (variableNeg "c")) .nil)))) .nil)))) ∧
    (pyMul (pyMul (.opn (variableNeg "a")) (.opn (variableNeg "b"))) (.opn (variableNeg "c")) =
      .opn (productInit (.cons (.opn (variableNeg "a")) (.cons (.opn (variableNeg "b"))
        (.cons (.opn (variableNeg "c")) .nil)))) ∧
     pyMul (.opn (variableNeg "a")) (pyMul (.opn (variableNeg "b")) (.opn (variableNeg "c"))) =
      .opn (productInit (.cons (.opn (variableNeg "a"))
        (.cons (.opn (productInit (.cons (.opn (variableNeg "b"))
          (.cons (.opn (variableNeg "c")) .nil)))) .nil)))) :=
  ⟨claim1_amended.1 (variableNeg "a") (variableNeg "b") (variableNeg "c")
      (by decide) (by decide) (by decide),
   claim1_amended.2 (variableNeg "a") (variableNeg "b") (variableNeg "c")
      (by decide) (by decide) (by decide)⟩

/-! ### Claim C6 -/

instance : IsTotal String productSortKeyRel :=
  ⟨fun a b => Nat.le_total (latexSortKey a) (latexSortKey b)⟩

instance : IsTrans String productSortKeyRel :=
  ⟨fun _ _ _ hab hbc => Nat.le_trans hab hbc⟩

/-- inserting into the sorted tail preserves the sublist of entries of any
fixed bucket, except for prepending the inserted element to its own bucket:
the stability kernel of `sorted`. -/
theorem filterKey_orderedInsert (k : ℕ) (a : String) (l : List String) :
    (List.orderedInsert productSortKeyRel a l).filter (fun s => latexSortKey s == k) =
      if latexSortKey a == k
      then a :: l.filter (fun s => latexSortKey s == k)
      else l.filter (fun s => latexSortKey s == k) := by
  induction l with
  | nil =>
    cases hk : (latexSortKey a == k) <;>
      simp [List.orderedInsert, List.filter, hk]
  | cons b t ih =>
    by_cases hr : productSortKeyRel a b
    · rw [List.orderedInsert, if_pos hr]
      cases hk : (latexSortKey a == k) <;> simp [List.filter_cons, hk]
    · rw [List.orderedInsert, if_neg hr]
      have hlt : latexSortKey b < latexSortKey a := Nat.lt_of_not_le hr
      cases hk : (latexSortKey a == k)
      · simp only [List.filter_cons, ih, hk, Bool.false_eq_true, if_false]
      · have hak : latexSortKey a = k := by simpa using hk
        have hbk : (latexSortKey b == k) = false := by
          simp only [beq_eq_false_iff_ne, ne_eq]
          omega
        simp only [List.filter_cons, ih, hk, hbk, Bool.false_eq_true, if_false, if_true]

/-- CPython's `sorted` is stable; so is `List.insertionSort` with `≤` on the
sort keys: the entries of each bucket appear in their original order. -/
theorem filterKey_insertionSort (k : ℕ) (l : List String) :
    (List.insertionSort productSortKeyRel l).filter (fun s => latexSortKey s == k) =
      l.filter (fun s => latexSortKey s == k) := by
  induction l with
  | nil => rfl
  | cons b t ih =>
    rw [List.insertionSort, filterKey_orderedInsert, ih]
    cases hk : (latexSortKey b == k) <;> simp [List.filter_cons, hk]

/-- C6.  `Product.make_latex` sorts the operands' LaTeX strings by the
5-bucket display key (0 bare number, 1 leading unary minus, 2 fraction,
4 fully parenthesized, 3 anything else such as a bare variable) with a
stable tie-break: the sorted list is sorted by the key, is a permutation of
the unsorted list, and each bucket keeps its original relative order.
Concretely, `latex(2 * x * (x + 1))` is `{{2}{x}{({x} + {1})}}` — constant
first, parenthesized sum last — in either construction order. -/
theorem claim6_product_display_ordering :
    (∀ inputs : List Operand,
      List.Sorted productSortKeyRel (productSortedLatexList inputs)) ∧
    (∀ inputs : List Operand,
      (productSortedLatexList inputs).Perm (productLatexList inputs)) ∧
    (∀ (inputs : List Operand) (k : ℕ),
      (productSortedLatexList inputs).filter (fun s => latexSortKey s == k) =
        (productLatexList inputs).filter (fun s => latexSortKey s == k)) ∧
    latexSortKey "\x7b2\x7d" = 0 ∧
    latexSortKey "\x7b-\x7by\x7d\x7d" = 1 ∧
    latexSortKey (getLatexRepr (pyDiv (.num (.pint 1)) (.var "x"))) = 2 ∧
    latexSortKey "\x7bx\x7d" = 3 ∧
    latexSortKey "\x7b(\x7bx\x7d + \x7b1\x7d)\x7d" = 4 ∧
    getLatexRepr (pyMul (pyMul (.num (.pint 2)) (.var "x"))
      (pyAdd (.var "x") (.num (.pint 1)))) = "\x7b\x7b2\x7d\x7bx\x7d\x7b(\x7bx\x7d + \x7b1\x7d)\x7d\x7d" ∧
    getLatexRepr (pyMul (pyMul (pyAdd (.var "x") (.num (.pint 1))) (.var "x"))
      (.num (.pint 2))) = "\x7b\x7b2\x7d\x7bx\x7d\x7b(\x7bx\x7d + \x7b1\x7d)\x7d\x7d" ∧
    productMakeLatex [.num (.pint 2), .var "x",
      .opn (sumInit (.cons (.var "x") (.cons (.num (.pint 1)) .nil)))] =
      ["\x7b2\x7d", "\x7bx\x7d", "\x7b(\x7bx\x7d + \x7b1\x7d)\x7d"] := by
  refine ⟨fun inputs => List.sorted_insertionSort _ _,
    fun inputs => List.perm_insertionSort _ _,
    fun inputs k => filterKey_insertionSort k _,
    by decide, by decide, by decide, by decide, by decide, by decide, by decide, by decide⟩

end AlgCalc
